import Mathlib

/-!
Verification of the fionacode analysis scripts against their specification.

The repository holds three Python scripts:
  * `.opencode/tool/extract_api.py` — public-API symbol extraction,
  * `.opencode/tool/validate_docstrings.py` — docstring conformance checking,
  * `.opencode/tool/exit_criteria_checker.py` — the quality-gate evaluator.

They are shallowly embedded here.  Modelling conventions:
  * Python strings are Lean `String`s, scanned through their character lists;
    the regex character classes `\w` and `\s` are modelled for ASCII text,
    which covers every identifier and docstring the analyses handle.
  * `ast.parse` is Python standard-library code external to the repository;
    its outcome is passed in as an `Except`-valued parameter (a syntax error
    carries the exception text), and `ast.get_docstring` is likewise modelled
    by the `doc` field carried on a function-definition node.
  * `ast.walk` enumerates nodes breadth-first but its own documentation
    promises no particular order; the embedding enumerates the same node set
    depth-first, and no verified property depends on the traversal order.
  * Python floats are modelled as rationals; every numeric value these
    claims exercise (70, 0, 1) is exactly representable, so float and
    rational comparison agree.
  * `list(set(...))` in `parse_docstring_params` produces the set elements
    in an order that depends on the interpreter's string-hash seed; the
    embedding therefore takes the set-enumeration function as an explicit
    parameter `enum`, constrained only to preserve membership.
-/

namespace Fionacode

/-- ASCII word characters: the `\w` class of the Python regexes used by
`validate_docstrings.py` (letters, digits, underscore). -/
def isWordChar (c : Char) : Bool := c.isAlphanum || c == '_'

/-- ASCII whitespace: the `\s` class of the Python regexes and the character
set removed by `str.strip()`. -/
def pyIsSpace (c : Char) : Bool :=
  c == ' ' || c == '\t' || c == '\n' || c == '\r' || c == '\x0b' || c == '\x0c'

/-- Models Python `str.isupper()` on ASCII text: at least one cased character
and every cased character upper-case (digits and underscores are not cased). -/
def pyIsUpper (s : String) : Bool :=
  s.data.any (fun c => c.isAlpha) && s.data.all (fun c => !c.isAlpha || c.isUpper)

/-- Models Python `str.strip()` on ASCII text: remove leading and trailing
whitespace. -/
def pyStrip (s : String) : String :=
  ⟨((s.data.dropWhile pyIsSpace).reverse.dropWhile pyIsSpace).reverse⟩

/-- Models Python `str.lower()` on ASCII text. -/
def pyLower (s : String) : String := ⟨s.data.map Char.toLower⟩

/-- Literal (case-sensitive) prefix test on a character list. -/
def startsLit (pat : String) (l : List Char) : Bool := pat.data.isPrefixOf l

/-- Replacement of every non-overlapping occurrence of a (non-empty) pattern,
left to right: models Python `str.replace`.  The fuel starts at the text
length; each step consumes at least one character, so for the non-empty
patterns used here it never runs out early. -/
def replaceAux : Nat → List Char → List Char → List Char → List Char
  | 0, _, _, l => l
  | _ + 1, _, _, [] => []
  | fuel + 1, pat, rep, c :: rest =>
      if pat.isPrefixOf (c :: rest) then
        rep ++ replaceAux fuel pat rep ((c :: rest).drop pat.length)
      else c :: replaceAux fuel pat rep rest

/-- Models Python `str.replace(pat, rep)` for a non-empty pattern. -/
def pyReplace (s pat rep : String) : String :=
  ⟨replaceAux s.data.length pat.data rep.data s.data⟩

/-- One element of a literal list/tuple expression, as inspected by the
`__all__` scan of `extract_api.py`: a string constant (`ast.Str` or
`ast.Constant` holding a `str`) or anything else. -/
inductive ExprLit where
  | str (s : String)
  | other
deriving DecidableEq

/-- The right-hand side of an assignment, as inspected by the `__all__` scan:
a literal list, a literal tuple, or anything else. -/
inductive AssignValue where
  | listLit (elts : List ExprLit)
  | tupleLit (elts : List ExprLit)
  | other
deriving DecidableEq

/-- An assignment target: a plain name (`ast.Name`) or any destructuring or
attribute/subscript target. -/
inductive PyTarget where
  | name (id : String)
  | other
deriving DecidableEq

/-- A parsed Python statement, restricted to the node shapes the two analysis
scripts distinguish.  `funcDef.hasRet` models `node.returns is not None`;
`funcDef.doc` models the result of `ast.get_docstring(node)` (the cleaned
docstring, or `None`); `other` stands for any remaining compound statement
and carries its nested statements so that tree walks see them. -/
inductive Stmt where
  | classDef (name : String) (lineno : Nat) (body : List Stmt)
  | funcDef (name : String) (args : List String) (hasRet : Bool)
      (doc : Option String) (lineno : Nat) (body : List Stmt)
  | asyncFuncDef (name : String) (args : List String) (hasRet : Bool)
      (doc : Option String) (lineno : Nat) (body : List Stmt)
  | assign (targets : List PyTarget) (value : AssignValue) (lineno : Nat)
  | other (body : List Stmt)

mutual

/-- All statement nodes of the subtree rooted at one statement, the node
itself first; together with `walkStmts` this models the node set yielded by
`ast.walk`. -/
def walkStmt : Stmt → List Stmt
  | .classDef n ln b => .classDef n ln b :: walkStmts b
  | .funcDef n a r d ln b => .funcDef n a r d ln b :: walkStmts b
  | .asyncFuncDef n a r d ln b => .asyncFuncDef n a r d ln b :: walkStmts b
  | .assign t v ln => [.assign t v ln]
  | .other b => .other b :: walkStmts b

/-- All statement nodes reachable from a list of statements. -/
def walkStmts : List Stmt → List Stmt
  | [] => []
  | s :: rest => walkStmt s ++ walkStmts rest

end

/-- One extracted symbol, mirroring the JSON object built in
`extract_public_api` (`signature` is `None` for assignment targets). -/
structure SymbolRecord where
  name : String
  type : String
  signature : Option String
  module : String
  line : Nat
deriving DecidableEq

/-- String constants of a literal sequence, in order; non-string elements are
skipped, exactly as the element loop of the `__all__` scan skips them. -/
def strConsts (elts : List ExprLit) : List String :=
  elts.filterMap fun e => match e with
    | .str s => some s
    | .other => none

/-- One step of the `__all__` scan of `extract_api.py` (lines 24-37): on an
assignment, the loop over its targets re-binds `all_exports` whenever a
target is the name `__all__` and the value is a literal list or tuple;
any other statement leaves the accumulator unchanged. -/
def allStep (acc : Option (List String)) (s : Stmt) : Option (List String) :=
  match s with
  | .assign targets value _ =>
      targets.foldl
        (fun a t =>
          match t with
          | .name i =>
              if i == "__all__" then
                match value with
                | .listLit elts => some (strConsts elts)
                | .tupleLit elts => some (strConsts elts)
                | .other => a
              else a
          | .other => a)
        acc
  | _ => acc

/-- The `__all__` allow-list of a module: the whole tree is walked and the
last matching assignment wins (`extract_api.py` lines 23-37). -/
def scanAllExports (body : List Stmt) : Option (List String) :=
  (walkStmts body).foldl allStep none

/-- The name bound by the target loop of `extract_api.py` (lines 54-58): each
plain-name target overwrites `name`, so the last one survives. -/
def assignName (targets : List PyTarget) : Option String :=
  targets.foldl
    (fun acc t =>
      match t with
      | .name i => some i
      | .other => acc)
    none

/-- Symbol records contributed by one top-level statement
(`extract_api.py` lines 39-71): the candidate name, type and signature are
computed per node shape, then the visibility filter keeps the candidate only
when the name is non-empty, does not start with an underscore, and — when an
allow-list exists — is a member of it. -/
def stmtSymbols (allExports : Option (List String)) (modName : String)
    (s : Stmt) : List SymbolRecord :=
  let cand : Option (String × String × Option String × Nat) :=
    match s with
    | .classDef n ln _ => some (n, "class", some ("class " ++ n), ln)
    | .funcDef n args _ _ ln _ =>
        some (n, "function",
          some ("def " ++ n ++ "(" ++ String.intercalate ", " args ++ ")"), ln)
    | .assign targets _ ln =>
        (assignName targets).map fun n =>
          (n, if pyIsUpper n then "constant" else "variable", none, ln)
    | _ => none
  match cand with
  | none => []
  | some (n, ty, sig, ln) =>
      if !n.isEmpty && !(startsLit "_" n.data) &&
          (match allExports with
           | none => true
           | some l => l.contains n) then
        [⟨n, ty, sig, modName, ln⟩]
      else []

/-- Models `extract_public_api(content, filepath)`: the parse outcome of the
content is passed in (`ast.parse` is standard-library code); a syntax error
yields the empty list, otherwise the allow-list is scanned over the whole
tree and each top-level statement contributes its symbols in order. -/
def extract_public_api (parsed : Except String (List Stmt))
    (filepath : String) : List SymbolRecord :=
  match parsed with
  | .error _ => []
  | .ok body =>
      let modName := pyReplace (pyReplace filepath ".py" "") "/" "."
      let allExports := scanAllExports body
      body.foldr (fun s acc => stmtSymbols allExports modName s ++ acc) []

/-- Case-insensitive prefix test: the pattern (given lower-case) against the
lower-cased text, modelling `re.IGNORECASE` matching of a literal. -/
def ciStarts (pat : String) (l : List Char) : Bool :=
  pat.data.isPrefixOf (l.map Char.toLower)

/-- Match of the pattern `(?:Returns?|Yields?):` with `re.IGNORECASE` at one
position: the optional `s` is greedy, so the longer literal is tried first;
the colon is required by the pattern. -/
def retTryAt (l : List Char) : Bool :=
  ciStarts "returns:" l || ciStarts "return:" l ||
    ciStarts "yields:" l || ciStarts "yield:" l

/-- Models `re.search` of `(?:Returns?|Yields?):` with `re.IGNORECASE`: a
match may start at any position of the text. -/
def retSearch : List Char → Bool
  | [] => false
  | c :: rest => retTryAt (c :: rest) || retSearch rest

/-- Models `has_return_doc(docstring)` of `validate_docstrings.py`
(lines 44-48): `False` for a missing docstring, otherwise a regex search for
`(?:Returns?|Yields?):` case-insensitively. -/
def has_return_doc : Option String → Bool
  | none => false
  | some d => retSearch d.data

/-- Keyword alternative `(?:Args?|Parameters?):` of the Google-style pattern
at one position, returning the number of characters it spans.  The regex
tries `Args?` with a greedy optional `s` first, then `Parameters?`; because
the next pattern token is a literal colon, the match succeeds exactly for
one of the four keyword-plus-colon literals. -/
def googleKw (l : List Char) : Option Nat :=
  if startsLit "Args:" l then some 5
  else if startsLit "Arg:" l then some 4
  else if startsLit "Parameters:" l then some 11
  else if startsLit "Parameter:" l then some 10
  else none

/-- Attempted match of `(?:Args?|Parameters?):\s*\n\s+(\w+)` at one position.
After the keyword and colon the tokens `\s*\n\s+` must consume the whole
whitespace run that follows (the classes `\s` and `\w` are disjoint, so
backtracking cannot stop inside the run); such a split exists exactly when
some newline of the run has at least one further whitespace character after
it, i.e. when the run with its last character removed still holds a newline.
The capture is the maximal word run that follows, which must be non-empty.
Returns the capture and the unconsumed suffix. -/
def googleTry (l : List Char) : Option (String × List Char) :=
  match googleKw l with
  | none => none
  | some k =>
      let rest := l.drop k
      let ws := rest.takeWhile pyIsSpace
      let rest2 := rest.dropWhile pyIsSpace
      if (ws.dropLast).contains '\n' then
        let w := rest2.takeWhile isWordChar
        if w.isEmpty then none
        else some (⟨w⟩, rest2.dropWhile isWordChar)
      else none

/-- Scan of `re.findall` for the Google-style pattern: positions are tried
left to right and a match resumes scanning at its end, so matches do not
overlap.  The fuel starts at the text length and every step consumes at
least one character, so it never runs out before the text ends. -/
def googleScanAux : Nat → List Char → List String
  | 0, _ => []
  | _ + 1, [] => []
  | fuel + 1, c :: rest =>
      match googleTry (c :: rest) with
      | some (cap, after) => cap :: googleScanAux fuel after
      | none => googleScanAux fuel rest

/-- All captures of `(?:Args?|Parameters?):\s*\n\s+(\w+)` over the text
(`parse_docstring_params`, lines 28-31; `re.MULTILINE` is irrelevant since
the pattern holds no `^` or `$`). -/
def googleScan (l : List Char) : List String := googleScanAux l.length l

/-- Attempted match of `:param\s+(\w+):` at one position: the literal
`:param`, at least one whitespace character, then the capture — a maximal
non-empty word run — and a required colon. -/
def sphinxTry (l : List Char) : Option (String × List Char) :=
  if startsLit ":param" l then
    let rest := l.drop 6
    let ws := rest.takeWhile pyIsSpace
    if ws.isEmpty then none
    else
      let rest2 := rest.dropWhile pyIsSpace
      let w := rest2.takeWhile isWordChar
      let rest3 := rest2.dropWhile isWordChar
      if w.isEmpty then none
      else
        match rest3 with
        | ':' :: tail => some (⟨w⟩, tail)
        | _ => none
  else none

/-- Scan of `re.findall` for the Sphinx-style pattern `:param\s+(\w+):`
(`parse_docstring_params`, lines 33-35). -/
def sphinxScanAux : Nat → List Char → List String
  | 0, _ => []
  | _ + 1, [] => []
  | fuel + 1, c :: rest =>
      match sphinxTry (c :: rest) with
      | some (cap, after) => cap :: sphinxScanAux fuel after
      | none => sphinxScanAux fuel rest

/-- All captures of `:param\s+(\w+):` over the text. -/
def sphinxScan (l : List Char) : List String := sphinxScanAux l.length l

/-- Attempted match of `\s*(\w+)\s*:` at a line start: leading whitespace
(which may span further newlines), then the capture — a maximal non-empty
word run — then whitespace up to a required colon (the colon is not a
whitespace character, so backtracking forces it to sit at the first
non-whitespace position after the word). -/
def numpyTryCore (l : List Char) : Option (String × List Char) :=
  let rest2 := l.dropWhile pyIsSpace
  let w := rest2.takeWhile isWordChar
  if w.isEmpty then none
  else
    let rest3 := rest2.dropWhile isWordChar
    let rest4 := rest3.dropWhile pyIsSpace
    match rest4 with
    | ':' :: tail => some (⟨w⟩, tail)
    | _ => none

/-- Scan of `re.findall` for the NumPy-style pattern `^\s*(\w+)\s*:` with
`re.MULTILINE`: the anchor `^` lets a match start only at the beginning of
the text or directly after a newline, tracked by the `atLS` flag; a match
ends right after its colon, so scanning resumes mid-line. -/
def numpyScanAux : Nat → Bool → List Char → List String
  | 0, _, _ => []
  | _ + 1, _, [] => []
  | fuel + 1, atLS, c :: rest =>
      if atLS then
        match numpyTryCore (c :: rest) with
        | some (cap, after) => cap :: numpyScanAux fuel false after
        | none => numpyScanAux fuel (c == '\n') rest
      else numpyScanAux fuel (c == '\n') rest

/-- All captures of `^\s*(\w+)\s*:` (multiline) over the text
(`parse_docstring_params`, lines 37-39). -/
def numpyScan (l : List Char) : List String := numpyScanAux l.length true l

/-- The concatenated captures of the three docstring conventions, in the
order `parse_docstring_params` extends its `params` list: Google style,
then Sphinx style, then NumPy style. -/
def docParamMatches (d : String) : List String :=
  googleScan d.data ++ sphinxScan d.data ++ numpyScan d.data

/-- Models `parse_docstring_params(docstring)` (lines 14-41): empty input
yields the empty list; otherwise the three scans are concatenated and passed
through `list(set(...))`, modelled by the set-enumeration parameter `enum`
because the CPython set order depends on the per-process string-hash seed. -/
def parse_docstring_params (enum : List String → List String)
    (d : String) : List String :=
  if d.isEmpty then [] else enum (docParamMatches d)

/-- One discrepancy record, mirroring the issue dictionaries of
`validate_file`. -/
structure Issue where
  type : String
  severity : String
  description : String
  line : Nat
deriving DecidableEq

/-- One per-function validation record, mirroring the dictionary appended to
`validations` (lines 133-148).  The JSON key `has_return_annotation` is
carried by the field `has_return_ann`. -/
structure Validation where
  name : String
  line : Nat
  has_docstring : Bool
  param_count : Nat
  documented_params : List String
  actual_params : List String
  missing_params : List String
  extra_params : List String
  has_return_doc : Bool
  has_return_ann : Bool
  issues : List Issue
  valid : Bool
deriving DecidableEq

/-- The data of one `ast.FunctionDef` node as `validate_file` consumes it. -/
structure FuncData where
  name : String
  args : List String
  hasRet : Bool
  doc : Option String
  lineno : Nat
deriving DecidableEq

/-- The issue list of one function record (`validate_file` lines 89-129): a
single `missing`/`error` issue when there is no docstring; otherwise the
`incomplete` issue for undocumented parameters, the `mismatch` issue for
documented-but-absent parameters, and the return-documentation issue (whose
condition `has_return_annotation and not has_return_doc_flag` is passed in),
in that order, each present only when its condition holds. -/
def mkIssues (name : String) (lineno : Nat) (hasDoc : Bool)
    (missing extra : List String) (needRetIssue : Bool) : List Issue :=
  if !hasDoc then
    [⟨"missing", "error", "Function " ++ name ++ " has no docstring", lineno⟩]
  else
    (if missing.isEmpty then []
     else
       [⟨"incomplete", "warning",
         "Missing documentation for parameters: " ++
           String.intercalate ", " missing, lineno⟩]) ++
    (if extra.isEmpty then []
     else
       [⟨"mismatch", "warning",
         "Documented parameters not in signature: " ++
           String.intercalate ", " extra, lineno⟩]) ++
    (if needRetIssue then
       [⟨"incomplete", "warning",
         "Function has return annotation but no return documentation",
         lineno⟩]
     else [])

/-- The loop body of `validate_file` for one function node (lines 64-148):
receiver names `self` and `cls` are dropped from the formal parameters, the
documented set is parsed from the docstring, missing and extra parameters
are computed by membership filters, and the issue list is built — a single
`missing`/`error` issue when the docstring is absent, otherwise the
`incomplete`, `mismatch` and return-documentation checks in order. -/
def validateFunc (enum : List String → List String) (f : FuncData) :
    Validation :=
  let docstring := f.doc
  let hasDoc := docstring.isSome
  let actual := f.args.filter fun a => !(a == "self" || a == "cls")
  let documented :=
    match docstring with
    | some d => parse_docstring_params enum d
    | none => []
  let missing := actual.filter fun p => !(documented.contains p)
  let extra := documented.filter fun p => !(actual.contains p)
  let hra := f.hasRet
  let hrd := has_return_doc docstring
  let issues : List Issue := mkIssues f.name f.lineno hasDoc missing extra (hra && !hrd)
  let valid := issues.length == 0
  ⟨f.name, f.lineno, hasDoc, actual.length, documented, actual, missing,
    extra, hrd, hra, issues, valid⟩

/-- The function nodes of a walked tree, in walk order: only plain
`ast.FunctionDef` nodes are kept (`isinstance(node, ast.FunctionDef)` is
false for `ast.AsyncFunctionDef`). -/
def collectFuncs (body : List Stmt) : List FuncData :=
  (walkStmts body).filterMap fun s =>
    match s with
    | .funcDef n a r d ln _ => some ⟨n, a, r, d, ln⟩
    | _ => none

/-- The result dictionary of `validate_file`: an error message and empty
validation list on a syntax error, otherwise the per-function records. -/
structure VResult where
  error : Option String
  validations : List Validation
deriving DecidableEq

/-- Models `validate_file(filepath)` (lines 51-150): the parse outcome of
the file's text is passed in; a syntax error yields the error dictionary
with the formatted message, otherwise every walked function node is
validated. -/
def validate_file (enum : List String → List String) (filepath : String)
    (parsed : Except String (List Stmt)) : VResult :=
  match parsed with
  | .error e =>
      ⟨some ("Syntax error in " ++ filepath ++ ": " ++ e), []⟩
  | .ok body => ⟨none, (collectFuncs body).map (validateFunc enum)⟩

/-- Observable outcome of the `__main__` block of `validate_docstrings.py`:
process exit code, the JSON payload printed to standard output (if any), and
the message printed to standard error (if any). -/
structure VMainOut where
  exitCode : Nat
  stdoutJson : Option (List Validation)
  stderrMsg : Option String
deriving DecidableEq

/-- Models lines 158-165 of `validate_docstrings.py`: when the result holds
an error the message goes to standard error and the process exits with code
1 printing no JSON; otherwise the validations are printed and the exit code
is 0. -/
def validate_main (enum : List String → List String) (filepath : String)
    (parsed : Except String (List Stmt)) : VMainOut :=
  let result := validate_file enum filepath parsed
  match result.error with
  | some e => ⟨1, none, some e⟩
  | none => ⟨0, some result.validations, none⟩

/-- A JSON value as `json.loads` produces it: `null`, booleans, integers and
non-integral numbers (Python keeps them as distinct types `int` and
`float`; both are modelled over `ℚ`), strings, arrays and objects. -/
inductive JValue where
  | jnull
  | jbool (b : Bool)
  | jint (n : Int)
  | jfloat (q : ℚ)
  | jstr (s : String)
  | jarr (elts : List JValue)
  | jobj (fields : List (String × JValue))

/-- Numeric value of a run of decimal digits. -/
def digitsVal (l : List Char) : Nat :=
  l.foldl (fun a c => a * 10 + (c.toNat - 48)) 0

/-- A non-empty all-digit run, or failure. -/
def parseDigits (l : List Char) : Option Nat :=
  if !l.isEmpty && l.all Char.isDigit then some (digitsVal l) else none

/-- Leading sign of a numeric literal: `true` means negative. -/
def splitSign : List Char → Bool × List Char
  | '+' :: r => (false, r)
  | '-' :: r => (true, r)
  | l => (false, l)

/-- Models Python `int(s)` on the decimal fragment the gate can receive: an
optional sign and a non-empty digit run (underscore separators and non-ASCII
digits are not modelled; no claim exercises them). -/
def pyParseInt (s : String) : Option Int :=
  let (neg, d) := splitSign (pyStrip s).data
  (parseDigits d).map fun n => if neg then -(n : Int) else (n : Int)

/-- Exponent part of a float literal: a sign and a non-empty digit run,
scaling the mantissa by a power of ten. -/
def expPart (base : ℚ) (l : List Char) : Option ℚ :=
  let (eneg, d) := splitSign l
  match parseDigits d with
  | some e =>
      some (base * (10 : ℚ) ^ (if eneg then -(e : ℤ) else (e : ℤ)))
  | none => none

/-- Models Python `float(s)` on the finite decimal fragment: sign, integer
and/or fractional digits, optional exponent.  The literals `inf` and `nan`
are outside the rational model and, like underscore separators, are not
modelled; no claim exercises them. -/
def pyParseFloat (s : String) : Option ℚ :=
  let (neg, l1) := splitSign (pyStrip s).data
  let ip := l1.takeWhile Char.isDigit
  let r1 := l1.dropWhile Char.isDigit
  let hasDot := match r1 with
    | '.' :: _ => true
    | _ => false
  let t := match r1 with
    | '.' :: u => u
    | _ => r1
  let fp := if hasDot then t.takeWhile Char.isDigit else []
  let r2 := if hasDot then t.dropWhile Char.isDigit else r1
  if ip.isEmpty && fp.isEmpty then none
  else
    let mant : ℚ := (digitsVal (ip ++ fp) : ℚ) / (10 : ℚ) ^ fp.length
    let signed := if neg then -mant else mant
    match r2 with
    | [] => some signed
    | 'e' :: er => expPart signed er
    | 'E' :: er => expPart signed er
    | _ => none

/-- Models `_as_bool` (`exit_criteria_checker.py` lines 12-23): `None` and
every non-bool non-string value map to `None`; strings are stripped,
lowered and matched against the two literal sets. -/
def pyAsBool : JValue → Option Bool
  | .jnull => none
  | .jbool b => some b
  | .jstr s =>
      let low := pyLower (pyStrip s)
      if low == "true" || low == "yes" || low == "1" || low == "pass" ||
          low == "passed" then some true
      else if low == "false" || low == "no" || low == "0" || low == "fail" ||
          low == "failed" then some false
      else none
  | _ => none

/-- Models `_as_float` (lines 26-36).  In Python `bool` is a subclass of
`int`, so `isinstance(value, (int, float))` is true for booleans and
`float(True)` is `1.0`; the `None` check precedes it. -/
def pyAsFloat : JValue → Option ℚ
  | .jnull => none
  | .jbool b => some (if b then 1 else 0)
  | .jint n => some (n : ℚ)
  | .jfloat q => some q
  | .jstr s => pyParseFloat s
  | _ => none

/-- Models `_as_int` (lines 39-53): booleans are rejected explicitly before
the `int` test, floats convert only when integral, strings go through
`int(...)`. -/
def pyAsInt : JValue → Option Int
  | .jnull => none
  | .jbool _ => none
  | .jint n => some n
  | .jfloat q => if q.den == 1 then some q.num else none
  | .jstr s => pyParseInt s
  | _ => none

/-- Models `dict.get` on a dictionary built by `json.loads`: for duplicate
keys in the JSON text the last one wins; an absent key gives `None`. -/
def pyGet (fields : List (String × JValue)) (k : String) : Option JValue :=
  ((fields.filter fun kv => kv.1 == k).getLast?).map fun kv => kv.2

/-- Applies a coercion to an optional value the way
`_as_bool(payload.get(key))` does: an absent key behaves like an explicit
JSON `null`, both coercing to `None`. -/
def optAs {α : Type} (f : JValue → Option α) : Option JValue → Option α
  | none => none
  | some v => f v

/-- One criterion's evaluation, mirroring the `CriterionResult` dataclass. -/
structure CriterionResult where
  met : Bool
  value : JValue
  threshold : JValue
  reason : String

/-- The four criteria of the result's `criteria` dictionary, in insertion
order. -/
structure Criteria where
  tests_passed : CriterionResult
  branch_coverage : CriterionResult
  type_checks_passed : CriterionResult
  critical_issues_count : CriterionResult

/-- One entry of the result's `unmet` list. -/
structure Unmet where
  key : String
  reason : String
  value : JValue
  threshold : JValue

/-- The result's `thresholds` dictionary; Python renders the coverage
threshold `70.0` as the string `"> 70.0"`. -/
structure Thresholds where
  branch_coverage : String
  tests_passed : Bool
  type_checks_passed : Bool
  critical_issues_count : Int

/-- The result's `inputs` dictionary: the four coerced values. -/
structure Inputs where
  tests_passed : Option Bool
  branch_coverage : Option ℚ
  type_checks_passed : Option Bool
  critical_issues_count : Option Int

/-- The full result object `evaluate` returns. -/
structure GateR where
  ok : Bool
  decision : String
  score : ℤ
  thresholds : Thresholds
  inputs : Inputs
  criteria : Criteria
  unmet : List Unmet
  summary : String

/-- JSON rendering of an optional bool, as it would appear in the result. -/
def optBoolJ : Option Bool → JValue
  | none => .jnull
  | some b => .jbool b

/-- JSON rendering of an optional float. -/
def optFloatJ : Option ℚ → JValue
  | none => .jnull
  | some q => .jfloat q

/-- JSON rendering of an optional int. -/
def optIntJ : Option Int → JValue
  | none => .jnull
  | some n => .jint n

/-- The branch-coverage threshold, `BRANCH_COVERAGE_THRESHOLD = 70.0`. -/
def branchCoverageThreshold : ℚ := 70

/-- Models `evaluate(payload)` (`exit_criteria_checker.py` lines 64-174).
The four fields are coerced, each criterion is evaluated with its reason
string, `met_count` sums the met flags, the score is
`int(round((met_count / 4.0) * 100))` (every value of that expression is an
exact integer, so Python's float rounding and rational rounding agree), and
the decision is `approve` exactly on `met_count == 4`. -/
def evaluate (payload : List (String × JValue)) : GateR :=
  let tests_passed := optAs pyAsBool (pyGet payload "tests_passed")
  let type_checks_passed := optAs pyAsBool (pyGet payload "type_checks_passed")
  let branch_coverage := optAs pyAsFloat (pyGet payload "branch_coverage")
  let critical := optAs pyAsInt (pyGet payload "critical_issues_count")
  let tests_ok : CriterionResult :=
    ⟨tests_passed == some true, optBoolJ tests_passed, .jbool true,
      if tests_passed == some true then "tests passed"
      else "tests_passed must be true"⟩
  let coverage_ok : CriterionResult :=
    ⟨(match branch_coverage with
      | some q => decide (q > branchCoverageThreshold)
      | none => false),
      optFloatJ branch_coverage, .jstr "> 70.0",
      match branch_coverage with
      | none => "branch_coverage must be provided"
      | some q =>
          if q ≤ branchCoverageThreshold then "branch_coverage must be > 70.0"
          else "branch coverage above threshold"⟩
  let typecheck_ok : CriterionResult :=
    ⟨type_checks_passed == some true, optBoolJ type_checks_passed,
      .jbool true,
      if type_checks_passed == some true then "type checks passed"
      else "type_checks_passed must be true"⟩
  let critical_ok : CriterionResult :=
    ⟨critical == some 0, optIntJ critical, .jint 0,
      match critical with
      | none => "critical_issues_count must be provided"
      | some n => if n == 0 then "no critical issues"
          else "critical issues must be 0"⟩
  let cs : List (String × CriterionResult) :=
    [("tests_passed", tests_ok), ("branch_coverage", coverage_ok),
     ("type_checks_passed", typecheck_ok),
     ("critical_issues_count", critical_ok)]
  let unmet : List Unmet :=
    (cs.filter fun kc => !kc.2.met).map fun kc =>
      ⟨kc.1, kc.2.reason, kc.2.value, kc.2.threshold⟩
  let met_count :=
    [tests_ok.met, coverage_ok.met, typecheck_ok.met, critical_ok.met].count
      true
  let score : ℤ := round ((met_count : ℚ) / 4 * 100)
  let decision := if met_count == 4 then "approve" else "iterate"
  let summary :=
    if decision == "approve" then "Exit criteria met"
    else "Exit criteria NOT met"
  ⟨true, decision, score, ⟨"> 70.0", true, true, 0⟩,
    ⟨tests_passed, branch_coverage, type_checks_passed, critical⟩,
    ⟨tests_ok, coverage_ok, typecheck_ok, critical_ok⟩, unmet, summary⟩

/-- What the gate's `main` prints to standard output: the evaluated result
object, or the error object `{"ok": false, "error": ...}`. -/
inductive GateOut where
  | res (r : GateR)
  | err (msg : String)

/-- Observable outcome of the gate's `main`: exit code and printed object. -/
structure MainOut where
  exitCode : Nat
  stdout : GateOut

/-- Models `main()` (`exit_criteria_checker.py` lines 177-190) with
`json.loads` passed in as a parameter (standard-library code; an exception
carries its message): empty or whitespace-only input bypasses parsing and
becomes the empty dictionary, a non-object payload raises the `ValueError`,
and every path exits with code 0. -/
def mainRun (jloads : String → Except String JValue) (raw : String) :
    MainOut :=
  match (if (pyStrip raw).isEmpty then .ok (JValue.jobj []) else jloads raw)
      with
  | .error e => ⟨0, .err e⟩
  | .ok (JValue.jobj fields) => ⟨0, .res (evaluate fields)⟩
  | .ok _ => ⟨0, .err "Input payload must be a JSON object"⟩

/-- Number of met criteria as observable in a result object. -/
def metCountOf (r : GateR) : Nat :=
  [r.criteria.tests_passed.met, r.criteria.branch_coverage.met,
    r.criteria.type_checks_passed.met,
    r.criteria.critical_issues_count.met].count true

/-- A set-enumeration function modelling one possible behaviour of
`list(set(...))`: the hash order happens to coincide with first-occurrence
order. -/
def enumKeep (l : List String) : List String := l

/-- A set-enumeration function modelling another possible behaviour of
`list(set(...))` under a different hash seed: the reversed order. -/
def enumRev (l : List String) : List String := l.reverse

/-- Duplicate-freedom test on a list of strings. -/
def nodupB : List String → Bool
  | [] => true
  | x :: r => !(r.contains x) && nodupB r

/-- Whether `out` is a possible value of Python `list(set(inp))`: free of
duplicates and holding exactly the members of `inp`. -/
def isSetListOf (out inp : List String) : Bool :=
  nodupB out && (inp.all fun x => out.contains x) &&
    (out.all fun x => inp.contains x)

/-- The order-independent shape of an issue: its type, severity and line. -/
def issueShape (i : Issue) : String × String × Nat := (i.type, i.severity, i.line)

/-- Substring containment on character lists: the pattern occurs starting at
some position. -/
def containsSub (pat : List Char) : List Char → Bool
  | [] => pat.isEmpty
  | c :: rest => pat.isPrefixOf (c :: rest) || containsSub pat rest

/-- Contract of `hasReturnSection` as the specification words it: the text
contains, case-insensitively, one of the keywords `Returns`, `Return`,
`Yields` or `Yield` with an OPTIONAL trailing colon — so the bare keyword
with no colon already counts.  This definition follows the specification's
words and is compared against the implementation `has_return_doc`. -/
def spec_hasReturnSection (s : String) : Bool :=
  let lc := s.data.map Char.toLower
  ["returns", "return", "yields", "yield"].any fun k =>
    containsSub k.data lc || containsSub (k.data ++ [':']) lc

/-- The simple name targets of an assignment, in order. -/
def targetName : PyTarget → Option String
  | .name i => some i
  | .other => none

/-- The module of claim C1:
`__all__ = ["_private"]`, `def _private(): ...` (with a docstring),
`def helper(): ...` — the allow-list names `_private`. -/
def c1Module : List Stmt :=
  [.assign [.name "__all__"] (.listLit [.str "_private"]) 1,
   .funcDef "_private" [] false (some "Doc.") 2 [],
   .funcDef "helper" [] false none 3 []]

/-- The docstring of claim C3's function: two Sphinx-style parameters. -/
def c3Doc : String := ":param a:\n:param b:"

/-- The function node of claim C3: parameters `a` and `b`, both
documented. -/
def c3Func : FuncData := ⟨"f", ["a", "b"], false, some c3Doc, 1⟩

/-- The module of claim C5: the top-level statement `a = b = 1`. -/
def c5Module : List Stmt :=
  [.assign [.name "a", .name "b"] .other 1]

/-- A function node with no docstring (witness data for claim C2). -/
def c2Func : FuncData := ⟨"g", [], false, none, 1⟩

/-- A one-function module whose function has no docstring. -/
def c2Module : List Stmt := [.funcDef "g" [] false none 1 []]

/-- A function node with a fully documented parameter list (witness data for
claim C6). -/
def c6Func : FuncData := ⟨"h", ["x"], false, some ":param x:", 2⟩

/-- A one-function module whose function is fully documented. -/
def c6Module : List Stmt := [.funcDef "h" ["x"] false (some ":param x:") 2 []]

/-- The gate payload of claim C7: `{"branch_coverage": 70}` (a JSON integer)
with the other three keys absent. -/
def c7Payload : List (String × JValue) := [("branch_coverage", .jint 70)]

/-! ### Helper lemmas -/

/-- Two lists with the same members answer every `contains` query alike. -/
theorem contains_congr {l1 l2 : List String}
    (h : ∀ x, x ∈ l1 ↔ x ∈ l2) (p : String) :
    l1.contains p = l2.contains p := by
  have h1 : l1.contains p = true ↔ p ∈ l1 := List.elem_iff
  have h2 : l2.contains p = true ↔ p ∈ l2 := List.elem_iff
  by_cases hp : p ∈ l1
  · rw [h1.mpr hp, h2.mpr ((h p).mp hp)]
  · have hq : p ∉ l2 := fun hx => hp ((h p).mpr hx)
    cases hc1 : l1.contains p with
    | true => exact absurd (h1.mp hc1) hp
    | false =>
        cases hc2 : l2.contains p with
        | true => exact absurd (h2.mp hc2) hq
        | false => rfl

/-- Two lists with the same members are empty together. -/
theorem isEmpty_congr {l1 l2 : List String}
    (h : ∀ x, x ∈ l1 ↔ x ∈ l2) : l1.isEmpty = l2.isEmpty := by
  cases he1 : l1.isEmpty with
  | true =>
      have : l1 = [] := List.isEmpty_iff.mp he1
      subst this
      have : l2 = [] := List.eq_nil_iff_forall_not_mem.mpr
        (fun a ha => (by simpa using (h a).mpr ha))
      simp [this]
  | false =>
      cases he2 : l2.isEmpty with
      | true =>
          have : l2 = [] := List.isEmpty_iff.mp he2
          subst this
          have : l1 = [] := List.eq_nil_iff_forall_not_mem.mpr
            (fun a ha => (by simpa using (h a).mp ha))
          simp [this] at he1
      | false => rfl

/-- The fold of the assignment-target loop computes the last plain name of
the target list. -/
theorem assignName_foldl (ts : List PyTarget) (acc : Option String) :
    ts.foldl
      (fun acc t =>
        match t with
        | .name i => some i
        | .other => acc)
      acc = ((ts.filterMap targetName).getLast?).or acc := by
  induction ts generalizing acc with
  | nil => simp
  | cons t rest ih =>
      cases t with
      | name i =>
          rw [List.foldl_cons, ih (some i)]
          simp only [targetName, List.filterMap_cons, List.getLast?_cons]
          cases h : (rest.filterMap targetName).getLast? <;> simp [h]
      | other =>
          rw [List.foldl_cons, ih acc]
          simp [targetName, List.filterMap_cons]

/-- `assignName` is the last plain-name target. -/
theorem assignName_eq (ts : List PyTarget) :
    assignName ts = (ts.filterMap targetName).getLast? := by
  have h := assignName_foldl ts none
  simpa [assignName] using h

/-- Every record of `validate_file` is `validateFunc` applied to some
function node. -/
theorem validations_mem {enum : List String → List String} {fp : String}
    {parsed : Except String (List Stmt)} {v : Validation}
    (hv : v ∈ (validate_file enum fp parsed).validations) :
    ∃ f : FuncData, v = validateFunc enum f := by
  cases parsed with
  | error e => simp [validate_file] at hv
  | ok body =>
      simp only [validate_file] at hv
      rcases List.mem_map.mp hv with ⟨f, _, rfl⟩
      exact ⟨f, rfl⟩

/-- A record built from a docstring-less node carries exactly the single
`missing`/`error` issue and is invalid. -/
theorem validateFunc_no_doc (enum : List String → List String) (f : FuncData)
    (hd : f.doc = none) :
    (validateFunc enum f).issues =
      [⟨"missing", "error",
        "Function " ++ f.name ++ " has no docstring", f.lineno⟩] ∧
    (validateFunc enum f).valid = false := by
  cases f with
  | mk n args r doc ln =>
      simp only at hd
      subst hd
      simp [validateFunc, mkIssues]

/-- A record's `valid` flag is the emptiness of its issue list. -/
theorem validateFunc_valid_iff (enum : List String → List String)
    (f : FuncData) :
    (validateFunc enum f).valid = true ↔ (validateFunc enum f).issues = [] := by
  show ((validateFunc enum f).issues.length == 0) = true ↔ _
  simp [List.length_eq_zero]

/-- Issue lists built from equal missing lists, same-emptiness extra lists
and the same remaining inputs have the same shapes (type, severity, line). -/
theorem mkIssues_shape_congr (name : String) (ln : Nat) (hasDoc : Bool)
    (m1 m2 e1 e2 : List String) (c : Bool)
    (hm : m1 = m2) (he : e1.isEmpty = e2.isEmpty) :
    (mkIssues name ln hasDoc m1 e1 c).map issueShape =
      (mkIssues name ln hasDoc m2 e2 c).map issueShape := by
  subst hm
  unfold mkIssues
  cases hasDoc with
  | false => rfl
  | true =>
      rw [if_neg (by simp), if_neg (by simp : ¬((!true) = true))]
      rw [List.map_append, List.map_append, List.map_append, List.map_append]
      have hseg : (if e1.isEmpty then ([] : List Issue)
          else [⟨"mismatch", "warning",
            "Documented parameters not in signature: " ++
              String.intercalate ", " e1, ln⟩]).map issueShape =
          (if e2.isEmpty then ([] : List Issue)
          else [⟨"mismatch", "warning",
            "Documented parameters not in signature: " ++
              String.intercalate ", " e2, ln⟩]).map issueShape := by
        rw [← he]
        cases hE : e1.isEmpty <;> simp [issueShape]
      rw [hseg]

/-- The score formula of `evaluate`, read off the result object. -/
theorem evaluate_score (payload : List (String × JValue)) :
    (evaluate payload).score =
      round ((metCountOf (evaluate payload) : ℚ) / 4 * 100) := rfl

/-- The decision formula of `evaluate`, read off the result object. -/
theorem evaluate_decision (payload : List (String × JValue)) :
    (evaluate payload).decision =
      (if metCountOf (evaluate payload) == 4 then "approve" else "iterate") :=
  rfl

/-- Rounded quarter-percentages at the five possible met counts. -/
theorem round_quarter (m : Nat) (hm : m ≤ 4) :
    round ((m : ℚ) / 4 * 100) = 25 * m := by
  interval_cases m <;> norm_num [round_eq]

/-! ### Claims -/

/-- C1: the specification (and the script's own comment, line 60: "Only
include public symbols (not starting with _) or those in `__all__`") says
membership in the `__all__` allow-list overrides the leading-underscore
privacy rule, so `_private` must be extracted from
`__all__ = ["_private"]; def _private(): ...; def helper(): ...`.  The code
instead tests `not name.startswith("_")` before ever consulting `__all__`,
so the extraction result is empty: `_private` is dropped despite being
allow-listed (and `helper`, correctly, for not being listed).  This theorem
evaluates the embedded extractor at that failing input. -/
theorem c1_allowlisted_underscore_excluded :
    scanAllExports c1Module = some ["_private"] ∧
    extract_public_api (.ok c1Module) "pkg/mod.py" = [] := by
  constructor
  · rfl
  · rfl

/-- C2: a function definition with no attached docstring yields a record
whose issue list is exactly the one `missing`/`error` issue naming the
function and its line — so no `incomplete` or `mismatch` issue can appear —
and whose `valid` flag is false. -/
theorem c2_missing_docstring (enum : List String → List String) (fp : String)
    (parsed : Except String (List Stmt)) (v : Validation)
    (hv : v ∈ (validate_file enum fp parsed).validations)
    (hd : v.has_docstring = false) :
    v.issues = [⟨"missing", "error",
      "Function " ++ v.name ++ " has no docstring", v.line⟩] ∧
    v.valid = false := by
  rcases validations_mem hv with ⟨f, rfl⟩
  have hs : f.doc.isSome = false := hd
  have hnone : f.doc = none := by
    cases h : f.doc with
    | none => rfl
    | some d => rw [h] at hs; simp at hs
  exact validateFunc_no_doc enum f hnone

/-- Witness for C2 at a concrete one-function module whose function `g` has
no docstring. -/
theorem c2_missing_docstring_witness :
    (validateFunc enumKeep c2Func ∈
      (validate_file enumKeep "w.py" (.ok c2Module)).validations) ∧
    (validateFunc enumKeep c2Func).has_docstring = false ∧
    ((validateFunc enumKeep c2Func).issues = [⟨"missing", "error",
        "Function " ++ (validateFunc enumKeep c2Func).name ++
          " has no docstring", (validateFunc enumKeep c2Func).line⟩] ∧
      (validateFunc enumKeep c2Func).valid = false) :=
  ⟨by decide, by decide,
    c2_missing_docstring enumKeep "w.py" (.ok c2Module)
      (validateFunc enumKeep c2Func) (by decide) (by decide)⟩

/-- C5 counterexample: for the top-level statement `a = b = 1` (both names
public, no allow-list) the claim demands one record per target, i.e. records
for both `a` and `b`; the code's target loop overwrites the candidate name,
so extraction yields exactly one record — for `b` — and none for `a`. -/
theorem c5_counterexample :
    extract_public_api (.ok c5Module) "m.py" =
      [⟨"b", "variable", none, "m", 1⟩] ∧
    (extract_public_api (.ok c5Module) "m.py").all
      (fun r => r.name != "a") = true := by
  constructor
  · rfl
  · rfl

/-- C5 (amended): a top-level assignment contributes at most one record,
for the LAST simple (non-destructured) target name, with kind `constant`
exactly when that name is all upper-case, subject to the usual visibility
filter; earlier targets of the same statement get no record. -/
theorem c5_amended (allExp : Option (List String)) (m : String)
    (ts : List PyTarget) (v : AssignValue) (ln : Nat) :
    stmtSymbols allExp m (.assign ts v ln) =
      (match (ts.filterMap targetName).getLast? with
       | none => []
       | some n =>
           if !n.isEmpty && !(startsLit "_" n.data) &&
               (match allExp with
                | none => true
                | some l => l.contains n) then
             [⟨n, if pyIsUpper n then "constant" else "variable", none, m, ln⟩]
           else []) := by
  simp only [stmtSymbols, assignName_eq]
  cases (ts.filterMap targetName).getLast? with
  | none => rfl
  | some n => rfl

/-- C8: on an unparseable input, symbol extraction returns the empty list
(non-fatal) while the docstring-validation entry point prints the formatted
syntax-error message to standard error, exits with code 1, and emits no
JSON. -/
theorem c8_syntax_error (e fp : String) (enum : List String → List String) :
    extract_public_api (.error e) fp = [] ∧
    validate_main enum fp (.error e) =
      ⟨1, none, some ("Syntax error in " ++ fp ++ ": " ++ e)⟩ :=
  ⟨rfl, rfl⟩

/-- C9: async function definitions are invisible to both analyses — a
top-level `async def` contributes no symbol record, and validating a module
whose single top-level statement is an `async def` yields exactly the
records of the statements nested inside it (the async node itself is never
matched, because only plain function-definition nodes are collected). -/
theorem c9_async_invisible (n : String) (args : List String) (hr : Bool)
    (d : Option String) (ln : Nat) (body : List Stmt)
    (allExp : Option (List String)) (m : String)
    (enum : List String → List String) (fp : String) :
    stmtSymbols allExp m (.asyncFuncDef n args hr d ln body) = [] ∧
    (validate_file enum fp
        (.ok [.asyncFuncDef n args hr d ln body])).validations =
      (validate_file enum fp (.ok body)).validations := by
  constructor
  · rfl
  · simp [validate_file, collectFuncs, walkStmts, walkStmt]

/-- C6: a produced record's `valid` flag is true exactly when its issue list
is empty. -/
theorem c6_valid_iff_issues_empty (enum : List String → List String)
    (fp : String) (parsed : Except String (List Stmt)) (v : Validation)
    (hv : v ∈ (validate_file enum fp parsed).validations) :
    v.valid = true ↔ v.issues = [] := by
  rcases validations_mem hv with ⟨f, rfl⟩
  exact validateFunc_valid_iff enum f

/-- Witness for C6 at a concrete one-function module whose function `h` is
fully documented (the record is valid with no issues). -/
theorem c6_valid_iff_issues_empty_witness :
    (validateFunc enumKeep c6Func ∈
      (validate_file enumKeep "w6.py" (.ok c6Module)).validations) ∧
    ((validateFunc enumKeep c6Func).valid = true ↔
      (validateFunc enumKeep c6Func).issues = []) :=
  ⟨by decide,
    c6_valid_iff_issues_empty enumKeep "w6.py" (.ok c6Module)
      (validateFunc enumKeep c6Func) (by decide)⟩

/-- The regex search for `(?:Returns?|Yields?):` succeeds exactly when the
lower-cased text has one of the four keyword-plus-colon literals as an
infix. -/
theorem retSearch_iff (l : List Char) :
    retSearch l = true ↔
      ("returns:".data <:+: l.map Char.toLower ∨
       "return:".data <:+: l.map Char.toLower ∨
       "yields:".data <:+: l.map Char.toLower ∨
       "yield:".data <:+: l.map Char.toLower) := by
  induction l with
  | nil =>
      simp only [retSearch, List.map_nil, List.infix_nil]
      decide
  | cons c rest ih =>
      simp only [retSearch, retTryAt, ciStarts, Bool.or_eq_true,
        List.isPrefixOf_iff_prefix, List.map_cons, List.infix_cons_iff, ih]
      tauto

/-- C4 counterexample: the claim says the colon is optional, so the
docstring `"Returns the count"` — holding the bare keyword `Returns` —
must be reported as having return documentation; the code's pattern
`(?:Returns?|Yields?):` requires the colon, and `has_return_doc` answers
false there.  `spec_hasReturnSection` is the claim's own contract, worded
from the specification. -/
theorem c4_counterexample :
    spec_hasReturnSection "Returns the count" = true ∧
    has_return_doc (some "Returns the count") = false := by
  constructor
  · decide
  · decide

/-- C4 (amended): `has_return_doc` answers true iff the docstring contains,
case-insensitively, one of `Returns`, `Return`, `Yields`, `Yield` followed
by a REQUIRED colon (anywhere in the text, not only at line starts); the
bare keyword without a colon is not reported. -/
theorem c4_amended (s : String) :
    has_return_doc (some s) = true ↔
      ("returns:".data <:+: s.data.map Char.toLower ∨
       "return:".data <:+: s.data.map Char.toLower ∨
       "yields:".data <:+: s.data.map Char.toLower ∨
       "yield:".data <:+: s.data.map Char.toLower) :=
  retSearch_iff s.data

/-- C3 counterexample: on the function `f(a, b)` documented by
`":param a:\n:param b:"`, the docstring scan produces the match list
`["a", "b"]`; `enumKeep` and `enumRev` are both admissible values of
`list(set(...))` over that list (duplicate-free, same members — which of
them CPython produces depends on the per-process string-hash seed), yet
they yield different validation records: the claim that two runs produce
byte-identical output, with `documented_params` in the same order, fails. -/
theorem c3_counterexample :
    isSetListOf (enumKeep (docParamMatches c3Doc)) (docParamMatches c3Doc)
      = true ∧
    isSetListOf (enumRev (docParamMatches c3Doc)) (docParamMatches c3Doc)
      = true ∧
    (validateFunc enumKeep c3Func).documented_params = ["a", "b"] ∧
    (validateFunc enumRev c3Func).documented_params = ["b", "a"] ∧
    validateFunc enumKeep c3Func ≠ validateFunc enumRev c3Func := by
  refine ⟨by decide, by decide, by decide, by decide, by decide⟩

/-- C3 (amended): symbol extraction is a pure function of the parsed input,
so re-running it is byte-identical; docstring validation is byte-identical
only up to the set-enumeration order of `list(set(...))`: any two
membership-preserving enumerations give records that agree on every field
— name, line, docstring flag, parameter count, actual and missing
parameters, return flags, issue shapes (type, severity, line) and validity
— while `documented_params` and `extra_params` agree as sets but may
differ in order (and with them the serialized bytes and the `mismatch`
issue's wording). -/
theorem c3_amended (e1 e2 : List String → List String)
    (h1 : ∀ l x, x ∈ e1 l ↔ x ∈ l) (h2 : ∀ l x, x ∈ e2 l ↔ x ∈ l)
    (f : FuncData) :
    (validateFunc e1 f).name = (validateFunc e2 f).name ∧
    (validateFunc e1 f).line = (validateFunc e2 f).line ∧
    (validateFunc e1 f).has_docstring = (validateFunc e2 f).has_docstring ∧
    (validateFunc e1 f).param_count = (validateFunc e2 f).param_count ∧
    (validateFunc e1 f).actual_params = (validateFunc e2 f).actual_params ∧
    (validateFunc e1 f).missing_params = (validateFunc e2 f).missing_params ∧
    (∀ x, x ∈ (validateFunc e1 f).documented_params ↔
      x ∈ (validateFunc e2 f).documented_params) ∧
    (∀ x, x ∈ (validateFunc e1 f).extra_params ↔
      x ∈ (validateFunc e2 f).extra_params) ∧
    (validateFunc e1 f).has_return_doc = (validateFunc e2 f).has_return_doc ∧
    (validateFunc e1 f).has_return_ann = (validateFunc e2 f).has_return_ann ∧
    (validateFunc e1 f).issues.map issueShape =
      (validateFunc e2 f).issues.map issueShape ∧
    (validateFunc e1 f).valid = (validateFunc e2 f).valid := by
  rcases f with ⟨n, args, r, doc, ln⟩
  cases doc with
  | none =>
      exact ⟨rfl, rfl, rfl, rfl, rfl, rfl, fun x => Iff.rfl,
        fun x => Iff.rfl, rfl, rfl, rfl, rfl⟩
  | some d =>
      have hmem : ∀ x, x ∈ parse_docstring_params e1 d ↔
          x ∈ parse_docstring_params e2 d := by
        intro x
        unfold parse_docstring_params
        by_cases hd : d.isEmpty
        · rw [if_pos hd, if_pos hd]
        · rw [if_neg hd, if_neg hd]
          exact (h1 (docParamMatches d) x).trans
            (h2 (docParamMatches d) x).symm
      have hcont : ∀ p, (parse_docstring_params e1 d).contains p =
          (parse_docstring_params e2 d).contains p := contains_congr hmem
      have hmiss :
          (args.filter fun a => !(a == "self" || a == "cls")).filter
            (fun p => !((parse_docstring_params e1 d).contains p)) =
          (args.filter fun a => !(a == "self" || a == "cls")).filter
            (fun p => !((parse_docstring_params e2 d).contains p)) :=
        List.filter_congr fun p _ => by rw [hcont p]
      have hextraMem : ∀ x,
          x ∈ (parse_docstring_params e1 d).filter
            (fun p =>
              !((args.filter fun a => !(a == "self" || a == "cls")).contains
                p)) ↔
          x ∈ (parse_docstring_params e2 d).filter
            (fun p =>
              !((args.filter fun a => !(a == "self" || a == "cls")).contains
                p)) := by
        intro x
        simp only [List.mem_filter]
        exact ⟨fun hx => ⟨(hmem x).mp hx.1, hx.2⟩,
          fun hx => ⟨(hmem x).mpr hx.1, hx.2⟩⟩
      have hextraEmpty := isEmpty_congr hextraMem
      have hmap := mkIssues_shape_congr n ln true _ _ _ _
        (r && !(has_return_doc (some d))) hmiss hextraEmpty
      have hlen : (validateFunc e1 ⟨n, args, r, some d, ln⟩).issues.length =
          (validateFunc e2 ⟨n, args, r, some d, ln⟩).issues.length := by
        have hl := congrArg List.length hmap
        rw [List.length_map, List.length_map] at hl
        exact hl
      refine ⟨rfl, rfl, rfl, rfl, rfl, hmiss, hmem, hextraMem, rfl, rfl,
        hmap, ?_⟩
      show ((validateFunc e1 ⟨n, args, r, some d, ln⟩).issues.length == 0) =
        ((validateFunc e2 ⟨n, args, r, some d, ln⟩).issues.length == 0)
      rw [hlen]

/-- Witness for C3 (amended): the identity and the reversing enumerations
both preserve membership, and the theorem applies to them at the concrete
function node of the counterexample. -/
theorem c3_amended_witness :
    (∀ (l : List String) (x : String), x ∈ enumKeep l ↔ x ∈ l) ∧
    (∀ (l : List String) (x : String), x ∈ enumRev l ↔ x ∈ l) ∧
    ((validateFunc enumKeep c3Func).name =
        (validateFunc enumRev c3Func).name ∧
     (validateFunc enumKeep c3Func).line =
        (validateFunc enumRev c3Func).line ∧
     (validateFunc enumKeep c3Func).has_docstring =
        (validateFunc enumRev c3Func).has_docstring ∧
     (validateFunc enumKeep c3Func).param_count =
        (validateFunc enumRev c3Func).param_count ∧
     (validateFunc enumKeep c3Func).actual_params =
        (validateFunc enumRev c3Func).actual_params ∧
     (validateFunc enumKeep c3Func).missing_params =
        (validateFunc enumRev c3Func).missing_params ∧
     (∀ x, x ∈ (validateFunc enumKeep c3Func).documented_params ↔
        x ∈ (validateFunc enumRev c3Func).documented_params) ∧
     (∀ x, x ∈ (validateFunc enumKeep c3Func).extra_params ↔
        x ∈ (validateFunc enumRev c3Func).extra_params) ∧
     (validateFunc enumKeep c3Func).has_return_doc =
        (validateFunc enumRev c3Func).has_return_doc ∧
     (validateFunc enumKeep c3Func).has_return_ann =
        (validateFunc enumRev c3Func).has_return_ann ∧
     (validateFunc enumKeep c3Func).issues.map issueShape =
        (validateFunc enumRev c3Func).issues.map issueShape ∧
     (validateFunc enumKeep c3Func).valid =
        (validateFunc enumRev c3Func).valid) :=
  ⟨fun _ _ => Iff.rfl, fun _ _ => List.mem_reverse,
    c3_amended enumKeep enumRev (fun _ _ => Iff.rfl)
      (fun _ _ => List.mem_reverse) c3Func⟩

/-- C7: the gate requires `branch_coverage` strictly above 70.0 — the
boundary input `{"branch_coverage": 70}` leaves that criterion unmet, and
with the other three fields absent the decision is `iterate` with score 0
(all four criteria unmet); in general the score is the rounded percentage
of the four criteria met and the decision is `approve` exactly when all
four are met. -/
theorem c7_strict_threshold :
    ((evaluate c7Payload).criteria.branch_coverage.met = false ∧
     (evaluate c7Payload).decision = "iterate" ∧
     (evaluate c7Payload).score = 0 ∧
     metCountOf (evaluate c7Payload) = 0 ∧
     (evaluate c7Payload).unmet.length = 4) ∧
    ∀ payload : List (String × JValue),
      ((evaluate payload).decision = "approve" ↔
        metCountOf (evaluate payload) = 4) ∧
      (evaluate payload).score =
        round ((metCountOf (evaluate payload) : ℚ) / 4 * 100) := by
  constructor
  · refine ⟨rfl, rfl, ?_, rfl, rfl⟩
    rw [evaluate_score]
    norm_num [show metCountOf (evaluate c7Payload) = 0 from rfl, round_eq]
  · intro payload
    refine ⟨?_, evaluate_score payload⟩
    rw [evaluate_decision]
    by_cases h : metCountOf (evaluate payload) = 4
    · simp [h]
    · have hb : (metCountOf (evaluate payload) == 4) = false := by
        simpa using h
      rw [hb, if_neg (by decide : ¬(false = true))]
      exact iff_of_false (by decide) h

/-- C10: empty or whitespace-only standard input is treated as the empty
JSON object, not as malformed input: the gate exits with code 0 and prints
the well-formed result with `ok` true, decision `iterate`, score 0, and all
four criteria unmet. -/
theorem c10_empty_stdin (raw : String)
    (jloads : String → Except String JValue) (h : pyStrip raw = "") :
    mainRun jloads raw = ⟨0, .res (evaluate [])⟩ ∧
    (evaluate ([] : List (String × JValue))).ok = true ∧
    (evaluate ([] : List (String × JValue))).decision = "iterate" ∧
    (evaluate ([] : List (String × JValue))).score = 0 ∧
    metCountOf (evaluate ([] : List (String × JValue))) = 0 ∧
    (evaluate ([] : List (String × JValue))).unmet.length = 4 := by
  refine ⟨?_, rfl, rfl, ?_, rfl, rfl⟩
  · unfold mainRun
    rw [h]
    rfl
  · rw [evaluate_score]
    norm_num [show metCountOf (evaluate ([] : List (String × JValue))) = 0
      from rfl, round_eq]

/-- Witness for C10 at the concrete whitespace-only input `" \n\t "` (the
JSON loader is never consulted on this path). -/
theorem c10_empty_stdin_witness :
    pyStrip " \n\t " = "" ∧
    (mainRun (fun _ => .error "unused") " \n\t " =
        ⟨0, .res (evaluate [])⟩ ∧
      (evaluate ([] : List (String × JValue))).ok = true ∧
      (evaluate ([] : List (String × JValue))).decision = "iterate" ∧
      (evaluate ([] : List (String × JValue))).score = 0 ∧
      metCountOf (evaluate ([] : List (String × JValue))) = 0 ∧
      (evaluate ([] : List (String × JValue))).unmet.length = 4) :=
  ⟨by decide, c10_empty_stdin " \n\t " (fun _ => .error "unused") (by decide)⟩

end Fionacode
